import Mathlib

/-
Verification of the VoiceAgent session orchestrator (agent_server.py,
server_streaming.py, start_https.py) against its design document.

The embedding models the per-connection handlers as pure functions.
External collaborators (the Moonshine transcription engine, the OpenAI
completion and speech-synthesis HTTP calls) are supplied as per-frame
oracle inputs: the raw string the engine produced and the Except outcome
of each network call. Wall-clock timing fields of the emitted events
(stt_ms, llm_ms, total_ms, audio_seconds) are elided: they are
measurements of real time, not data transformations.
-/

/-! ### Python string primitives used by the servers -/

/-- The whitespace set of Python `str.strip()`. -/
def pyIsSpace (c : Char) : Bool :=
  c = ' ' || c = '\t' || c = '\n' || c = '\r' || c = Char.ofNat 11 || c = Char.ofNat 12

/-- Python `str.strip()` on a character list. -/
def stripChars (l : List Char) : List Char :=
  ((l.dropWhile pyIsSpace).reverse.dropWhile pyIsSpace).reverse

/-- Python `str.strip()`. -/
def pyStrip (s : String) : String := ⟨stripChars s.data⟩

/-- Python `str.split(sep)` on a character list: split at every occurrence
of `sep`, keeping empty pieces. -/
def splitCharsAux (sep : Char) : List Char → List Char → List (List Char)
  | [], acc => [acc.reverse]
  | c :: rest, acc =>
    if c = sep then acc.reverse :: splitCharsAux sep rest []
    else splitCharsAux sep rest (c :: acc)

/-- Python `str.split('\n')`. -/
def splitNewlines (s : String) : List String :=
  (splitCharsAux '\n' s.data []).map fun l => ⟨l⟩

/-- Python `line.split(']', 1)[1]`: everything after the first `]`. -/
def afterBracketAux : List Char → List Char
  | [] => []
  | c :: rest => if c = ']' then rest else afterBracketAux rest

/-- Python `line.split(']', 1)[1]` as a String operation. -/
def afterBracket (s : String) : String := ⟨afterBracketAux s.data⟩

/-- Python `']' in line`. -/
def hasBracket (s : String) : Bool := s.data.contains ']'

/-- Python `' '.join(pieces)`. -/
def joinSpace (pieces : List String) : String := String.intercalate " " pieces

/-- agent_server.transcribe_audio, parsing step: for each stripped
non-empty line of `str(result).strip().split('\n')`, take the text after
the first `]` (stripped) when a `]` is present, else the line itself, and
keep it when non-empty; join the kept pieces with spaces. -/
def extractSttText (raw : String) : String :=
  let lines := (splitNewlines (pyStrip raw)).map pyStrip
  let texts := (lines.filter fun l => l ≠ "").map fun line =>
    if hasBracket line then pyStrip (afterBracket line) else line
  joinSpace (texts.filter fun t => t ≠ "")

/-- server_streaming.StreamingSession._extract_text: for each stripped
line, if it holds a `]` append the stripped text after the first `]`
(even when empty); otherwise append the line when non-empty; join with
spaces. -/
def extract_text (raw : String) : String :=
  let lines := (splitNewlines (pyStrip raw)).map pyStrip
  joinSpace (lines.filterMap fun line =>
    if hasBracket line then some (pyStrip (afterBracket line))
    else if line ≠ "" then some line else none)

/-! ### Data model of the turn-based agent server -/

/-- A role tag of a conversation entry. -/
inductive Role where
  | user
  | assistant
deriving DecidableEq, Repr

/-- One entry `{role, content}` of the conversation history. -/
structure ChatMsg where
  role : Role
  content : String
deriving DecidableEq, Repr

/-- The events a server sends to its client, with the fields the
protocol requires (wall-clock metric fields elided). `binaryFrame` is the
raw synthesized-audio frame, its bytes as naturals. -/
inductive Event where
  | errorMsg (message : String)
  | user_message (text : String)
  | agent_response (text : String)
  | tts_audio (format : String) (size : Nat)
  | binaryFrame (data : List Nat)
  | pong
  | history_cleared
  | stream_started
  | partial_transcript (text : String)
  | final_transcript (text : String)
deriving DecidableEq, Repr

/-- Which external collaborator calls a frame handler performed. -/
inductive CallTag where
  | sttCall
  | llmCall
  | ttsCall
deriving DecidableEq, Repr

/-- agent_server.SAMPLE_RATE. -/
def SAMPLE_RATE : Nat := 16000

/-- The fixed apology substituted when the completion stage fails
(agent_server.handle_client, the `except` arm of the LLM call). -/
def FALLBACK : String := "Sorry, I couldn't process that. Could you try again?"

/-- The per-frame outcomes of the external collaborators: `sttRaw` is
`str(result)` of `transcribe_without_streaming`; `llm` is the outcome of
`get_llm_response` (an exception or the reply text); `tts` is the outcome
of `generate_tts` (an exception, or `None`-or-bytes). -/
structure TurnOracle where
  sttRaw : String
  llm : Except Unit String
  tts : Except Unit (Option (List Nat))
deriving Repr

/-- The reply text after the completion stage: the LLM's text on
success, the fixed fallback on failure. -/
def respText : Except Unit String → String
  | .ok t => t
  | .error _ => FALLBACK

/-- Python `conversation[-20:]` applied when `len(conversation) > 20`
(the `# Keep last 20 messages for context` trim). -/
def trimConv (conv : List ChatMsg) : List ChatMsg :=
  if conv.length > 20 then conv.drop (conv.length - 20) else conv

/-- The audio events of the synthesis step: on success with truthy bytes
`b`, the `tts_audio` header (format mp3, size `len(b)`) then the binary
frame; nothing when the call raised or returned `None` or empty bytes
(`if tts_audio:`). -/
def ttsEvents : Except Unit (Option (List Nat)) → List Event
  | .error _ => []
  | .ok none => []
  | .ok (some b) => if b = [] then [] else [.tts_audio "mp3" b.length, .binaryFrame b]

/-- agent_server.handle_client, binary-frame branch: validate the sample
count (`n_samples < SAMPLE_RATE * 0.3`, and `16000 * 0.3 == 4800.0`
exactly in IEEE double), transcribe, reject an empty/whitespace
transcript, emit `user_message`, append the user entry and trim to the
last 20 entries, run the completion stage (fallback on failure), append
the assistant entry, emit `agent_response`, then the synthesis step.
Returns the new conversation, the emitted events in send order, and the
collaborator calls made. -/
def handleBinary (nSamples : Nat) (o : TurnOracle) (conv : List ChatMsg) :
    List ChatMsg × List Event × List CallTag :=
  if nSamples < 4800 then
    (conv, [.errorMsg "Audio too short (< 300ms)"], [])
  else
    let user_text := extractSttText o.sttRaw
    if pyStrip user_text = "" then
      (conv, [.errorMsg "No speech detected"], [.sttCall])
    else
      let conv2 := trimConv (conv ++ [⟨.user, user_text⟩])
      let response_text := respText o.llm
      let conv3 := conv2 ++ [⟨.assistant, response_text⟩]
      (conv3,
       [.user_message user_text, .agent_response response_text] ++ ttsEvents o.tts,
       [.sttCall, .llmCall, .ttsCall])

/-- The parse outcome of one text frame: `json.loads` raised
(malformed), parsed to a non-object (so `data.get` raises), or parsed to
an object whose `"type"` member is the given string (`none` when absent
or not a string, in which case no `==` comparison matches). -/
inductive TextFrame where
  | malformed
  | nonObject
  | obj (ty : Option String)
deriving DecidableEq, Repr

/-- agent_server.handle_client, text-frame branch: `json.loads` then
dispatch on `data.get('type')` — `ping` answers `pong`, `clear_history`
clears the conversation and answers `history_cleared`, anything else
falls through with no effect. A malformed frame makes `json.loads`
raise; the exception is not caught by the handler (only
`ConnectionClosed` is), so the handler terminates: modelled as
`.error`. -/
def handleText : TextFrame → List ChatMsg → Except Unit (List ChatMsg × List Event)
  | .malformed, _ => .error ()
  | .nonObject, _ => .error ()
  | .obj ty, conv =>
    if ty = some "ping" then .ok (conv, [.pong])
    else if ty = some "clear_history" then .ok ([], [.history_cleared])
    else .ok (conv, [])

/-! ### Data model of the streaming transcription server -/

/-- server_streaming.StreamingSession: the per-client mutable state
(`is_streaming`, `partial_text`); the per-session Transcriber instance
is external and its outputs arrive as oracle inputs. -/
structure StreamingSession where
  is_streaming : Bool
  partial_text : String
deriving DecidableEq, Repr

/-- StreamingSession.__init__: not streaming, empty partial text. -/
def StreamingSession.init : StreamingSession :=
  { is_streaming := false, partial_text := "" }

/-- StreamingSession.start_stream: set streaming, reset the partial
text (the engine's `start()` is an external call). -/
def StreamingSession.start_stream (_s : StreamingSession) : StreamingSession :=
  { is_streaming := true, partial_text := "" }

/-- StreamingSession.feed_audio: when not streaming, return `None` at
once (no engine call). Otherwise `add_audio` and `update_transcription`
run (the returned Bool records that the engine was fed); `raw` is the
engine's transcript, `none` when falsy. When the extracted text is
non-empty and differs from `partial_text`, store and return it; else
return `None`. -/
def StreamingSession.feed_audio (s : StreamingSession) (raw : Option String) :
    StreamingSession × Option String × Bool :=
  if s.is_streaming = false then (s, none, false)
  else
    match raw with
    | none => (s, none, true)
    | some r =>
      let text := extract_text r
      if text ≠ "" ∧ text ≠ s.partial_text then
        ({ s with partial_text := text }, some text, true)
      else (s, none, true)

/-- StreamingSession.stop_stream: clear the streaming flag (the
engine's `stop()` is an external call), return the held partial text as
the final transcript and reset it to empty. -/
def StreamingSession.stop_stream (s : StreamingSession) : String × StreamingSession :=
  (s.partial_text, { is_streaming := false, partial_text := "" })

/-- server_streaming.handle_client, binary-frame branch: feed the chunk;
`if partial:` — send a `partial_transcript` event exactly when the
returned value is truthy (not `None` and not empty). -/
def streamBinaryStep (s : StreamingSession) (raw : Option String) :
    StreamingSession × List Event × Bool :=
  let r := s.feed_audio raw
  (r.1,
   (match r.2.1 with
    | some t => if t = "" then [] else [.partial_transcript t]
    | none => []),
   r.2.2)

/-- The events emitted while a streaming session consumes a list of
binary chunks (each with its engine-oracle transcript). -/
def streamRun (s : StreamingSession) : List (Option String) → StreamingSession × List Event
  | [] => (s, [])
  | raw :: rest =>
    let step := streamBinaryStep s raw
    let tail := streamRun step.1 rest
    (tail.1, step.2.1 ++ tail.2)

/-- server_streaming.handle_client, text-frame branch: `json.loads` then
dispatch on `data.get('type')` — `start_stream`, `stop_stream`, `ping`;
anything else falls through with no effect; a malformed frame raises out
of the handler (only `ConnectionClosed` is caught). -/
def streamTextStep : TextFrame → StreamingSession → Except Unit (StreamingSession × List Event)
  | .malformed, _ => .error ()
  | .nonObject, _ => .error ()
  | .obj ty, s =>
    if ty = some "start_stream" then .ok (s.start_stream, [.stream_started])
    else if ty = some "stop_stream" then
      let r := s.stop_stream
      .ok (r.2, [.final_transcript r.1])
    else if ty = some "ping" then .ok (s, [.pong])
    else .ok (s, [])

/-! ### Multi-turn history evolution (turn-based mode) -/

/-- The conversation after the server consumes a list of binary frames,
each a pair of its sample count and its collaborator oracle, starting
from `conv`. -/
def runTurnsFrom (conv : List ChatMsg) (frames : List (Nat × TurnOracle)) : List ChatMsg :=
  frames.foldl (fun c f => (handleBinary f.1 f.2 c).1) conv

/-- The conversation after the server consumes `frames` from an empty
history. -/
def runTurns (frames : List (Nat × TurnOracle)) : List ChatMsg :=
  runTurnsFrom [] frames

/-- The untrimmed transcript of the same frames: every user and
assistant entry of every completed turn, in order, nothing dropped.
Only meaningful when every frame completes a turn. -/
def fullTurnsFrom (conv : List ChatMsg) (frames : List (Nat × TurnOracle)) : List ChatMsg :=
  frames.foldl
    (fun c f => c ++ [⟨.user, extractSttText f.2.sttRaw⟩, ⟨.assistant, respText f.2.llm⟩])
    conv

/-- A frame that completes a turn: long enough, non-empty transcript. -/
def CompletedTurn (f : Nat × TurnOracle) : Prop :=
  4800 ≤ f.1 ∧ pyStrip (extractSttText f.2.sttRaw) ≠ ""

instance (f : Nat × TurnOracle) : Decidable (CompletedTurn f) := by
  unfold CompletedTurn; infer_instance

/-! ### Concrete fixtures for witnesses and counterexamples -/

/-- A collaborator oracle for a turn that succeeds at every stage. -/
def oHello : TurnOracle :=
  { sttRaw := "[0.10s] hello", llm := .ok "hi there", tts := .ok (some [1, 2, 3]) }

/-- A collaborator oracle whose completion stage raises. -/
def oFail : TurnOracle :=
  { sttRaw := "[0.10s] hello", llm := .error (), tts := .ok (some [1, 2, 3]) }

/-- A collaborator oracle whose synthesis stage raises. -/
def oTtsFail : TurnOracle :=
  { sttRaw := "[0.10s] hello", llm := .ok "hi there", tts := .error () }

/-- A streaming session mid-stream with no partial emitted yet. -/
def sLive : StreamingSession := { is_streaming := true, partial_text := "" }

/-! ### Helper lemmas -/

/-- On a frame that completes a turn, `handleBinary` appends the user
entry, trims, appends the assistant entry, and emits the turn's events
with all three collaborator calls. -/
lemma handleBinary_completed (n : Nat) (o : TurnOracle) (conv : List ChatMsg)
    (h1 : 4800 ≤ n) (h2 : pyStrip (extractSttText o.sttRaw) ≠ "") :
    handleBinary n o conv =
      (trimConv (conv ++ [⟨.user, extractSttText o.sttRaw⟩]) ++
         [⟨.assistant, respText o.llm⟩],
       [.user_message (extractSttText o.sttRaw), .agent_response (respText o.llm)] ++
         ttsEvents o.tts,
       [.sttCall, .llmCall, .ttsCall]) := by
  unfold handleBinary
  rw [if_neg (by omega), if_neg h2]

/-- The trim keeps a suffix of the history. -/
lemma trimConv_suffix (l : List ChatMsg) : trimConv l <:+ l := by
  unfold trimConv
  split
  · exact List.drop_suffix _ _
  · exact List.suffix_refl _

/-- The trimmed length is the length capped at 20. -/
lemma trimConv_length (l : List ChatMsg) : (trimConv l).length = min l.length 20 := by
  unfold trimConv
  split <;> simp <;> omega

/-- Trimming a history that ends in `u` leaves a history that still ends
in `u`. -/
lemma trimConv_append_last (z : List ChatMsg) (u : ChatMsg) :
    ∃ y, trimConv (z ++ [u]) = y ++ [u] := by
  unfold trimConv
  split
  · exact ⟨z.drop ((z ++ [u]).length - 20),
      List.drop_append_of_le_length (by simp)⟩
  · exact ⟨z, rfl⟩

/-- Appending the same block to both lists preserves the suffix
relation. -/
lemma suffix_append_same {α : Type} {l₁ l₂ : List α} (h : l₁ <:+ l₂) (x : List α) :
    l₁ ++ x <:+ l₂ ++ x := by
  obtain ⟨t, rfl⟩ := h
  exact ⟨t, by simp⟩

/-- A chunk fed to a session returns a partial transcript only when it
is non-empty and differs from the stored one, which it then becomes. -/
lemma feed_audio_some (s : StreamingSession) (raw : Option String) (t : String)
    (h : (s.feed_audio raw).2.1 = some t) :
    t ≠ "" ∧ t ≠ s.partial_text ∧ (s.feed_audio raw).1.partial_text = t ∧
      (s.feed_audio raw).1.is_streaming = s.is_streaming := by
  by_cases hs : s.is_streaming = false
  · simp [StreamingSession.feed_audio, hs] at h
  · cases raw with
    | none => simp [StreamingSession.feed_audio, hs] at h
    | some r =>
      by_cases hc : extract_text r ≠ "" ∧ extract_text r ≠ s.partial_text
      · have ht : extract_text r = t := by
          simpa [StreamingSession.feed_audio, hs, hc] using h
        subst ht
        refine ⟨hc.1, hc.2, ?_, ?_⟩ <;>
          simp [StreamingSession.feed_audio, hs, hc]
      · simp [StreamingSession.feed_audio, hs, hc] at h

/-- A chunk that returns no partial transcript leaves the session
unchanged. -/
lemma feed_audio_none (s : StreamingSession) (raw : Option String)
    (h : (s.feed_audio raw).2.1 = none) : (s.feed_audio raw).1 = s := by
  by_cases hs : s.is_streaming = false
  · simp [StreamingSession.feed_audio, hs]
  · cases raw with
    | none => simp [StreamingSession.feed_audio, hs]
    | some r =>
      by_cases hc : extract_text r ≠ "" ∧ extract_text r ≠ s.partial_text
      · simp [StreamingSession.feed_audio, hs, hc] at h
      · simp [StreamingSession.feed_audio, hs, hc]

/-- Length evolution of the history over completed turns: from a history
of length `min (2k) 21`, consuming the frames leaves length
`min (2 (k + frames.length)) 21`. -/
lemma runTurnsFrom_length :
    ∀ (frames : List (Nat × TurnOracle)) (conv : List ChatMsg) (k : Nat),
      (∀ f ∈ frames, CompletedTurn f) →
      conv.length = min (2 * k) 21 →
      (runTurnsFrom conv frames).length = min (2 * (k + frames.length)) 21
  | [], conv, k, _, hc => by simpa [runTurnsFrom] using hc
  | f :: rest, conv, k, h, hc => by
    obtain ⟨h1, h2⟩ := h f (List.mem_cons_self f rest)
    have step : runTurnsFrom conv (f :: rest) =
        runTurnsFrom (trimConv (conv ++ [⟨.user, extractSttText f.2.sttRaw⟩]) ++
          [⟨.assistant, respText f.2.llm⟩]) rest := by
      simp [runTurnsFrom, handleBinary_completed f.1 f.2 conv h1 h2]
    have hlen : (trimConv (conv ++ [⟨Role.user, extractSttText f.2.sttRaw⟩]) ++
        [(⟨Role.assistant, respText f.2.llm⟩ : ChatMsg)]).length = min (2 * (k + 1)) 21 := by
      simp [trimConv_length, hc]
      omega
    rw [step, runTurnsFrom_length rest _ (k + 1)
      (fun g hg => h g (List.mem_cons_of_mem f hg)) hlen]
    simp only [List.length_cons]
    congr 1
    omega

/-- Over completed turns, the trimmed history is always a suffix of the
untrimmed transcript: only oldest entries are dropped and the retained
ones keep their relative order. -/
lemma runTurnsFrom_suffix :
    ∀ (frames : List (Nat × TurnOracle)) (conv full : List ChatMsg),
      (∀ f ∈ frames, CompletedTurn f) →
      conv <:+ full →
      runTurnsFrom conv frames <:+ fullTurnsFrom full frames
  | [], conv, full, _, hs => by simpa [runTurnsFrom, fullTurnsFrom] using hs
  | f :: rest, conv, full, h, hs => by
    obtain ⟨h1, h2⟩ := h f (List.mem_cons_self f rest)
    have step : runTurnsFrom conv (f :: rest) =
        runTurnsFrom (trimConv (conv ++ [⟨.user, extractSttText f.2.sttRaw⟩]) ++
          [⟨.assistant, respText f.2.llm⟩]) rest := by
      simp [runTurnsFrom, handleBinary_completed f.1 f.2 conv h1 h2]
    have stepFull : fullTurnsFrom full (f :: rest) =
        fullTurnsFrom (full ++ [⟨.user, extractSttText f.2.sttRaw⟩,
          ⟨.assistant, respText f.2.llm⟩]) rest := by
      simp [fullTurnsFrom]
    rw [step, stepFull]
    refine runTurnsFrom_suffix rest _ _ (fun g hg => h g (List.mem_cons_of_mem f hg)) ?_
    have s1 : trimConv (conv ++ [⟨.user, extractSttText f.2.sttRaw⟩]) ++
        [(⟨.assistant, respText f.2.llm⟩ : ChatMsg)] <:+
        (conv ++ [⟨.user, extractSttText f.2.sttRaw⟩]) ++
        [⟨.assistant, respText f.2.llm⟩] :=
      suffix_append_same (trimConv_suffix _) _
    have s2 : (conv ++ [(⟨.user, extractSttText f.2.sttRaw⟩ : ChatMsg)]) ++
        [(⟨.assistant, respText f.2.llm⟩ : ChatMsg)] <:+
        (full ++ [⟨.user, extractSttText f.2.sttRaw⟩]) ++
        [⟨.assistant, respText f.2.llm⟩] :=
      suffix_append_same (suffix_append_same hs _) _
    have s3 := s1.trans s2
    simpa using s3

/-- Trace invariant of a streaming session consuming chunks: adjacent
emitted events differ, the first emitted text differs from the stored
partial text, and every emitted event is a `partial_transcript` with
non-empty text. -/
lemma streamRun_chain :
    ∀ (rs : List (Option String)) (s : StreamingSession),
      List.Chain' (fun a b => a ≠ b) (streamRun s rs).2 ∧
      (∀ t, ((streamRun s rs).2).head? = some (Event.partial_transcript t) →
        t ≠ s.partial_text) ∧
      (∀ e ∈ (streamRun s rs).2, ∃ t, e = Event.partial_transcript t ∧ t ≠ "")
  | [], s => by simp [streamRun]
  | raw :: rest, s => by
    rcases hp : (s.feed_audio raw).2.1 with _ | t
    · have hfix : (streamBinaryStep s raw).1 = s := by
        simp [streamBinaryStep, feed_audio_none s raw hp]
      have hev : (streamBinaryStep s raw).2.1 = [] := by
        simp [streamBinaryStep, hp]
      have IH := streamRun_chain rest s
      have h2 : (streamRun s (raw :: rest)).2 = (streamRun s rest).2 := by
        simp [streamRun, hev, hfix]
      rw [h2]
      exact IH
    · have hsome := feed_audio_some s raw t hp
      have hpt : (streamBinaryStep s raw).1.partial_text = t := by
        simpa [streamBinaryStep] using hsome.2.2.1
      have hev : (streamBinaryStep s raw).2.1 = [Event.partial_transcript t] := by
        simp [streamBinaryStep, hp, hsome.1]
      have IH := streamRun_chain rest (streamBinaryStep s raw).1
      have h2 : (streamRun s (raw :: rest)).2 =
          Event.partial_transcript t :: (streamRun (streamBinaryStep s raw).1 rest).2 := by
        simp [streamRun, hev]
      rw [h2]
      refine ⟨?_, ?_, ?_⟩
      · rw [List.chain'_cons']
        refine ⟨?_, IH.1⟩
        intro b hb
        have hbmem : b ∈ (streamRun (streamBinaryStep s raw).1 rest).2 :=
          List.mem_of_mem_head? hb
        obtain ⟨u, hbe, hu⟩ := IH.2.2 b hbmem
        subst hbe
        have hut : u ≠ t := by
          have := IH.2.1 u hb
          rwa [hpt] at this
        simp only [ne_eq, Event.partial_transcript.injEq]
        exact fun hh => hut hh.symm
      · intro u hu
        simp only [List.head?_cons, Option.some.injEq,
          Event.partial_transcript.injEq] at hu
        rw [← hu]
        exact hsome.2.1
      · intro e he
        rcases List.mem_cons.mp he with rfl | he
        · exact ⟨t, rfl, hsome.1⟩
        · exact IH.2.2 e he

/-! ### Claim theorems -/

/-- Claim C1, counterexample: eleven completed turns from an empty
history leave 21 entries, not `min (2 * 11) 20 = 20` — the trim to 20
runs only after the user append, so the assistant append pushes the
history to 21 between turns. -/
theorem history_window_claim_false :
    (∀ f ∈ List.replicate 11 ((16000 : Nat), oHello), CompletedTurn f) ∧
    (runTurns (List.replicate 11 ((16000 : Nat), oHello))).length ≠
      min (2 * (List.replicate 11 ((16000 : Nat), oHello)).length) 20 := by
  constructor <;> decide

/-- Claim C1, amended: after N completed turns the history length is
`min (2N) 21` — the window of 20 is enforced only at the user-append
step, so the history holds 21 entries between turns once N ≥ 11 — and
whenever entries are dropped it is the oldest, the retained entries
being a suffix of the untrimmed transcript in original order. -/
theorem history_window_amended (frames : List (Nat × TurnOracle))
    (h : ∀ f ∈ frames, CompletedTurn f) :
    (runTurns frames).length = min (2 * frames.length) 21 ∧
    runTurns frames <:+ fullTurnsFrom [] frames := by
  constructor
  · have := runTurnsFrom_length frames [] 0 h (by simp)
    simpa [runTurns] using this
  · exact runTurnsFrom_suffix frames [] [] h (List.suffix_refl _)

/-- Claim C1, witness: one completed turn leaves min 2 21 = 2 entries,
a suffix of the untrimmed transcript. -/
theorem history_window_amended_witness :
    (∀ f ∈ [((16000 : Nat), oHello)], CompletedTurn f) ∧
    ((runTurns [((16000 : Nat), oHello)]).length =
        min (2 * ([((16000 : Nat), oHello)] : List (Nat × TurnOracle)).length) 21 ∧
      runTurns [((16000 : Nat), oHello)] <:+ fullTurnsFrom [] [((16000 : Nat), oHello)]) :=
  ⟨by decide, history_window_amended _ (by decide)⟩

/-- Claim C2, counterexample: a malformed JSON text frame makes
`json.loads` raise; the handlers catch only `ConnectionClosed`, so the
exception terminates the handler and the connection does not stay open
(modelled as the `.error` outcome), in both the turn-based and the
streaming server. -/
theorem protocol_ignore_claim_false :
    handleText TextFrame.malformed [] = .error () ∧
    streamTextStep TextFrame.malformed .init = .error () := ⟨rfl, rfl⟩

/-- Claim C2, amended: a well-formed JSON object whose type is not a
recognized client-to-server type is silently ignored — no event, no
state change, handler continues — while a malformed JSON frame raises
out of the handler and closes the connection. -/
theorem protocol_ignore_amended (conv : List ChatMsg) (s : StreamingSession)
    (ty : Option String)
    (h1 : ty ≠ some "ping") (h2 : ty ≠ some "clear_history")
    (h3 : ty ≠ some "start_stream") (h4 : ty ≠ some "stop_stream") :
    (handleText (.obj ty) conv = .ok (conv, []) ∧
      streamTextStep (.obj ty) s = .ok (s, [])) ∧
    (handleText TextFrame.malformed conv = .error () ∧
      streamTextStep TextFrame.malformed s = .error ()) := by
  refine ⟨⟨?_, ?_⟩, rfl, rfl⟩
  · show (if ty = some "ping" then _ else if ty = some "clear_history" then _ else _) = _
    rw [if_neg h1, if_neg h2]
  · show (if ty = some "start_stream" then _
      else if ty = some "stop_stream" then _
      else if ty = some "ping" then _ else _) = _
    rw [if_neg h3, if_neg h4, if_neg h1]

/-- Claim C2, witness: the unknown type `bogus` is ignored by both
handlers and the malformed frame errors in both. -/
theorem protocol_ignore_amended_witness :
    (some "bogus" ≠ some "ping" ∧ some "bogus" ≠ some "clear_history" ∧
      some "bogus" ≠ some "start_stream" ∧ some "bogus" ≠ some "stop_stream") ∧
    ((handleText (.obj (some "bogus")) [] = .ok ([], []) ∧
        streamTextStep (.obj (some "bogus")) .init = .ok (.init, [])) ∧
      (handleText TextFrame.malformed [] = .error () ∧
        streamTextStep TextFrame.malformed .init = .error ())) :=
  ⟨by decide,
   protocol_ignore_amended [] .init (some "bogus") (by decide) (by decide)
     (by decide) (by decide)⟩

/-- Claim C3: when the completion stage fails on a completed turn, the
emitted `agent_response` text is the fixed fallback string, the history
still gains exactly one assistant entry equal to that string, and the
turn still proceeds to the synthesis stage. -/
theorem completion_fallback_turn (n : Nat) (o : TurnOracle) (conv : List ChatMsg)
    (h1 : 4800 ≤ n) (h2 : pyStrip (extractSttText o.sttRaw) ≠ "")
    (h3 : o.llm = .error ()) :
    (handleBinary n o conv).2.1 =
      [.user_message (extractSttText o.sttRaw), .agent_response FALLBACK] ++
        ttsEvents o.tts ∧
    (handleBinary n o conv).1 =
      trimConv (conv ++ [⟨.user, extractSttText o.sttRaw⟩]) ++
        [⟨.assistant, FALLBACK⟩] ∧
    CallTag.ttsCall ∈ (handleBinary n o conv).2.2 := by
  rw [handleBinary_completed n o conv h1 h2, h3]
  exact ⟨rfl, rfl, by simp⟩

/-- Claim C3, witness: a concrete turn with a failing completion stage. -/
theorem completion_fallback_turn_witness :
    (4800 ≤ 16000 ∧ pyStrip (extractSttText oFail.sttRaw) ≠ "" ∧
      oFail.llm = .error ()) ∧
    ((handleBinary 16000 oFail []).2.1 =
        [.user_message (extractSttText oFail.sttRaw), .agent_response FALLBACK] ++
          ttsEvents oFail.tts ∧
      (handleBinary 16000 oFail []).1 =
        trimConv ([] ++ [⟨.user, extractSttText oFail.sttRaw⟩]) ++
          [⟨.assistant, FALLBACK⟩] ∧
      CallTag.ttsCall ∈ (handleBinary 16000 oFail []).2.2) :=
  ⟨⟨by decide, by decide, rfl⟩,
   completion_fallback_turn 16000 oFail [] (by decide) (by decide) rfl⟩

/-- Claim C4: a binary frame that is too short, or whose transcript is
empty or whitespace, leaves the history unchanged, emits exactly one
`error` event, and makes no completion or synthesis call, the session
staying ready for the next frame. -/
theorem validation_error_turn (n : Nat) (o : TurnOracle) (conv : List ChatMsg)
    (h : n < 4800 ∨ (4800 ≤ n ∧ pyStrip (extractSttText o.sttRaw) = "")) :
    (handleBinary n o conv).1 = conv ∧
    (∃ m, (handleBinary n o conv).2.1 = [.errorMsg m]) ∧
    CallTag.llmCall ∉ (handleBinary n o conv).2.2 ∧
    CallTag.ttsCall ∉ (handleBinary n o conv).2.2 := by
  rcases h with h | ⟨h1, h2⟩
  · unfold handleBinary
    rw [if_pos h]
    exact ⟨rfl, ⟨_, rfl⟩, by simp, by simp⟩
  · unfold handleBinary
    rw [if_neg (by omega), if_pos h2]
    exact ⟨rfl, ⟨_, rfl⟩, by simp, by simp⟩

/-- Claim C4, witness: a 100-sample frame (below 0.3 × 16000) aborts
the turn with one error event. -/
theorem validation_error_turn_witness :
    (100 < 4800 ∨ (4800 ≤ 100 ∧ pyStrip (extractSttText oHello.sttRaw) = "")) ∧
    ((handleBinary 100 oHello []).1 = [] ∧
      (∃ m, (handleBinary 100 oHello []).2.1 = [.errorMsg m]) ∧
      CallTag.llmCall ∉ (handleBinary 100 oHello []).2.2 ∧
      CallTag.ttsCall ∉ (handleBinary 100 oHello []).2.2) :=
  ⟨Or.inl (by decide), validation_error_turn 100 oHello [] (Or.inl (by decide))⟩

/-- Claim C5: a successfully synthesized turn emits, in order, exactly
`user_message`, `agent_response`, the `tts_audio` header, then the
binary audio frame, the header immediately preceding the frame and its
size field equal to the frame's byte length. -/
theorem turn_event_order (n : Nat) (o : TurnOracle) (conv : List ChatMsg)
    (b : List Nat)
    (h1 : 4800 ≤ n) (h2 : pyStrip (extractSttText o.sttRaw) ≠ "")
    (h3 : o.tts = .ok (some b)) (h4 : b ≠ []) :
    (handleBinary n o conv).2.1 =
      [.user_message (extractSttText o.sttRaw),
       .agent_response (respText o.llm),
       .tts_audio "mp3" b.length,
       .binaryFrame b] := by
  rw [handleBinary_completed n o conv h1 h2]
  simp [ttsEvents, h3, h4]

/-- Claim C5, witness: a concrete fully successful turn emits the four
events in order with size 3 for the 3-byte frame. -/
theorem turn_event_order_witness :
    (4800 ≤ 16000 ∧ pyStrip (extractSttText oHello.sttRaw) ≠ "" ∧
      oHello.tts = .ok (some [1, 2, 3]) ∧ ([1, 2, 3] : List Nat) ≠ []) ∧
    (handleBinary 16000 oHello []).2.1 =
      [.user_message (extractSttText oHello.sttRaw),
       .agent_response (respText oHello.llm),
       .tts_audio "mp3" ([1, 2, 3] : List Nat).length,
       .binaryFrame [1, 2, 3]] :=
  ⟨⟨by decide, by decide, rfl, by decide⟩,
   turn_event_order 16000 oHello [] [1, 2, 3] (by decide) (by decide) rfl (by decide)⟩

/-- Claim C6: when the synthesis stage fails on a completed turn, no
`tts_audio` header and no binary frame is emitted, the `user_message`
and `agent_response` events are still sent, and both turn entries remain
at the end of the history; the handler returns normally, ready for the
next frame. -/
theorem synthesis_failure_turn (n : Nat) (o : TurnOracle) (conv : List ChatMsg)
    (h1 : 4800 ≤ n) (h2 : pyStrip (extractSttText o.sttRaw) ≠ "")
    (h3 : o.tts = .error ()) :
    (handleBinary n o conv).2.1 =
      [.user_message (extractSttText o.sttRaw), .agent_response (respText o.llm)] ∧
    [⟨.user, extractSttText o.sttRaw⟩, ⟨.assistant, respText o.llm⟩] <:+
      (handleBinary n o conv).1 := by
  rw [handleBinary_completed n o conv h1 h2, h3]
  constructor
  · simp [ttsEvents]
  · obtain ⟨y, hy⟩ := trimConv_append_last conv ⟨.user, extractSttText o.sttRaw⟩
    exact ⟨y, by rw [hy]; simp⟩

/-- Claim C6, witness: a concrete turn whose synthesis stage raises. -/
theorem synthesis_failure_turn_witness :
    (4800 ≤ 16000 ∧ pyStrip (extractSttText oTtsFail.sttRaw) ≠ "" ∧
      oTtsFail.tts = .error ()) ∧
    ((handleBinary 16000 oTtsFail []).2.1 =
        [.user_message (extractSttText oTtsFail.sttRaw),
         .agent_response (respText oTtsFail.llm)] ∧
      [⟨.user, extractSttText oTtsFail.sttRaw⟩,
       ⟨.assistant, respText oTtsFail.llm⟩] <:+ (handleBinary 16000 oTtsFail []).1) :=
  ⟨⟨by decide, by decide, rfl⟩,
   synthesis_failure_turn 16000 oTtsFail [] (by decide) (by decide) rfl⟩

/-- Claim C7: a partial transcript is returned after a chunk only when
it is non-empty and differs from the last stored partial text, and the
events a stream emits never hold two adjacent identical
`partial_transcript` events. -/
theorem streaming_change_detection (s : StreamingSession)
    (rs : List (Option String)) (raw : Option String) (t : String)
    (h : (s.feed_audio raw).2.1 = some t) :
    (t ≠ "" ∧ t ≠ s.partial_text) ∧
    List.Chain' (fun a b => a ≠ b) (streamRun s rs).2 := by
  have hs := feed_audio_some s raw t h
  exact ⟨⟨hs.1, hs.2.1⟩, (streamRun_chain rs s).1⟩

/-- Claim C7, witness: feeding the same transcript twice emits one
partial; the emitted trace has no adjacent duplicates. -/
theorem streaming_change_detection_witness :
    ((sLive.feed_audio (some "hi")).2.1 = some "hi") ∧
    (("hi" ≠ "" ∧ "hi" ≠ sLive.partial_text) ∧
      List.Chain' (fun a b => a ≠ b)
        (streamRun sLive [some "hi", some "hi"]).2) :=
  ⟨by decide,
   streaming_change_detection sLive [some "hi", some "hi"] (some "hi") "hi"
     (by decide)⟩

/-- Claim C8: `stop_stream` on a just-stopped session — and on a fresh
session with no preceding `start_stream` — returns an empty final
transcript; the operation is total (never throws). -/
theorem stop_stream_idempotent (s : StreamingSession) :
    ((s.stop_stream).2.stop_stream).1 = "" ∧
    (StreamingSession.init.stop_stream).1 = "" := ⟨rfl, rfl⟩

/-- Claim C10: a binary chunk received while no stream is active emits
no event, leaves the session's partial-transcript state unchanged, and
does not feed the engine. -/
theorem idle_chunk_no_effect (s : StreamingSession) (raw : Option String)
    (h : s.is_streaming = false) :
    streamBinaryStep s raw = (s, [], false) := by
  simp [streamBinaryStep, StreamingSession.feed_audio, h]

/-- Claim C10, witness: a fresh session ignores a chunk entirely. -/
theorem idle_chunk_no_effect_witness :
    StreamingSession.init.is_streaming = false ∧
    streamBinaryStep .init (some "hi") = (.init, [], false) :=
  ⟨rfl, idle_chunk_no_effect _ _ rfl⟩
